import Mathlib

/-!
Shallow embedding of the maple-engine renderer core
(src/engine/renderer/vk_utils.h and src/engine/renderer/renderer.cpp)
together with theorems settling specification claims about it.

Vulkan enum types are embedded as Lean inductives (only the constructors
the code distinguishes, plus representatives for "any other value");
Vulkan numeric enum values that the code compares with `==` on integral
fields are embedded as `Nat` constants with their Vulkan values.
`uint32_t` values are embedded as `Nat` (no arithmetic in the embedded
code can overflow 32 bits on the inputs the theorems quantify over,
except where noted).  A C++ function whose result may come from an
uninitialized read is embedded with result type `Option _`, `none`
standing for the undefined value.  `MAPLE_FATAL` calls `std::terminate`,
so a fatal path is embedded as an explicit event / `none` result and the
state mutation that would follow it never happens.
-/

namespace Maple

/-! ## Embedded Vulkan data types (vk_utils.h) -/

/-- VkPresentModeKHR; the code only distinguishes MAILBOX and FIFO, the
other two constructors stand for the remaining enum values. -/
inductive VkPresentModeKHR where
  | VK_PRESENT_MODE_IMMEDIATE_KHR
  | VK_PRESENT_MODE_MAILBOX_KHR
  | VK_PRESENT_MODE_FIFO_KHR
  | VK_PRESENT_MODE_FIFO_RELAXED_KHR
deriving DecidableEq, Repr

/-- VkFormat value VK_FORMAT_B8G8R8A8_SRGB (= 50 in vulkan_core.h). -/
def VK_FORMAT_B8G8R8A8_SRGB : Nat := 50

/-- VkColorSpaceKHR value VK_COLOR_SPACE_SRGB_NONLINEAR_KHR (= 0). -/
def VK_COLOR_SPACE_SRGB_NONLINEAR_KHR : Nat := 0

/-- VkSurfaceFormatKHR: a (format, colorSpace) pair; both fields are the
raw Vulkan enum integers. -/
structure VkSurfaceFormatKHR where
  format : Nat
  colorSpace : Nat
deriving DecidableEq, Repr

/-- VkExtent2D, both fields uint32_t. -/
structure VkExtent2D where
  width : Nat
  height : Nat
deriving DecidableEq, Repr

/-- The fields of VkSurfaceCapabilitiesKHR the embedded code reads. -/
structure VkSurfaceCapabilitiesKHR where
  minImageCount : Nat
  maxImageCount : Nat
  currentExtent : VkExtent2D
  minImageExtent : VkExtent2D
  maxImageExtent : VkExtent2D
deriving DecidableEq, Repr

/-- std::numeric_limits<uint32_t>::max(). -/
def UINT32_MAX : Nat := 2 ^ 32 - 1

/-- std::clamp on uint32_t: lo if v < lo, hi if hi < v, else v
(behaviour for lo ≤ hi; C++ leaves lo > hi undefined but the comparison
chain below is what libstdc++/libc++ compute). -/
def stdClamp (v lo hi : Nat) : Nat :=
  if v < lo then lo else if hi < v then hi else v

/-! ## vk_utils.h free functions -/

/-- ChooseOptimalSwapExtent (vk_utils.h:24): return currentExtent
verbatim unless its width is the uint32 sentinel, else clamp the
framebuffer size component-wise. -/
def ChooseOptimalSwapExtent (capabilities : VkSurfaceCapabilitiesKHR)
    (framebufferWidth framebufferHeight : Nat) : VkExtent2D :=
  if capabilities.currentExtent.width ≠ UINT32_MAX then capabilities.currentExtent
  else
    { width := stdClamp framebufferWidth capabilities.minImageExtent.width capabilities.maxImageExtent.width,
      height := stdClamp framebufferHeight capabilities.minImageExtent.height capabilities.maxImageExtent.height }

/-- Loop body of ChooseOptimalPresentMode (vk_utils.h:33): `i` is the
enumeration counter, `fifoIdx` the (possibly still uninitialized, hence
`Option`) local variable recording the index of the last FIFO entry
seen; the final return reads that variable. -/
def choosePresentModeGo (i : Nat) (fifoIdx : Option Nat) :
    List VkPresentModeKHR → Option Nat
  | [] => fifoIdx
  | mode :: rest =>
    if mode = .VK_PRESENT_MODE_MAILBOX_KHR then some i
    else if mode = .VK_PRESENT_MODE_FIFO_KHR then choosePresentModeGo (i + 1) (some i) rest
    else choosePresentModeGo (i + 1) fifoIdx rest

/-- ChooseOptimalPresentMode (vk_utils.h:33): first MAILBOX index if
any, otherwise the last FIFO index; `none` models the return of the
uninitialized `fifoIdx` when the list holds neither mode. -/
def ChooseOptimalPresentMode (presentModes : List VkPresentModeKHR) : Option Nat :=
  choosePresentModeGo 0 none presentModes

/-- Loop of ChooseOptimalSurfaceFormat (vk_utils.h:45): index of the
first (B8G8R8A8_SRGB, SRGB_NONLINEAR) entry, if any. -/
def chooseSurfaceFormatGo (i : Nat) : List VkSurfaceFormatKHR → Option Nat
  | [] => none
  | f :: rest =>
    if f.format = VK_FORMAT_B8G8R8A8_SRGB ∧ f.colorSpace = VK_COLOR_SPACE_SRGB_NONLINEAR_KHR then some i
    else chooseSurfaceFormatGo (i + 1) rest

/-- ChooseOptimalSurfaceFormat (vk_utils.h:45): index of the first
matching entry, else 0. -/
def ChooseOptimalSurfaceFormat (availableFormats : List VkSurfaceFormatKHR) : Nat :=
  (chooseSurfaceFormatGo 0 availableFormats).getD 0

/-- QueueCapabilities (vk_utils.h:51). -/
structure QueueCapabilities where
  QueueCount : Nat
  Graphics : Bool
  Compute : Bool
  Transfer : Bool
  Sparse_binding : Bool
  Protected : Bool
  Video_decode : Bool
  Video_encode : Bool
  Optical_flow : Bool
  Present : Bool
deriving DecidableEq, Repr

/-- GraphicsQueueCapabilityType (vk_utils.h:56). -/
inductive GraphicsQueueCapabilityType where
  | GRAPHICS
  | COMPUTE
  | TRANSFER
  | SPARSE_BINDING
  | PROTECTED
  | VIDEO_DECODE
  | VIDEO_ENCODE
  | OPTICAL_FLOW
  | PRESENT
deriving DecidableEq, Repr

/-- The switch statement inside GetQueueFamilyIdxWithCapability
(vk_utils.h:104-123).  Every `case` lacks a `break`, so control falls
through: entering at the label for `filter`, the family matches when it
has the filtered capability OR any capability listed after it. -/
def queueFamilySwitchMatches (filter : GraphicsQueueCapabilityType)
    (caps : QueueCapabilities) : Bool :=
  match filter with
  | .GRAPHICS =>
      caps.Graphics || caps.Compute || caps.Transfer || caps.Sparse_binding || caps.Protected ||
        caps.Video_decode || caps.Video_encode || caps.Optical_flow || caps.Present
  | .COMPUTE =>
      caps.Compute || caps.Transfer || caps.Sparse_binding || caps.Protected ||
        caps.Video_decode || caps.Video_encode || caps.Optical_flow || caps.Present
  | .TRANSFER =>
      caps.Transfer || caps.Sparse_binding || caps.Protected ||
        caps.Video_decode || caps.Video_encode || caps.Optical_flow || caps.Present
  | .SPARSE_BINDING =>
      caps.Sparse_binding || caps.Protected ||
        caps.Video_decode || caps.Video_encode || caps.Optical_flow || caps.Present
  | .PROTECTED =>
      caps.Protected || caps.Video_decode || caps.Video_encode || caps.Optical_flow || caps.Present
  | .VIDEO_DECODE => caps.Video_decode || caps.Video_encode || caps.Optical_flow || caps.Present
  | .VIDEO_ENCODE => caps.Video_encode || caps.Optical_flow || caps.Present
  | .OPTICAL_FLOW => caps.Optical_flow || caps.Present
  | .PRESENT => caps.Present

/-- Enumeration loop of GetQueueFamilyIdxWithCapability
(vk_utils.h:103). -/
def getQueueFamilyIdxGo (i : Nat) (filter : GraphicsQueueCapabilityType) :
    List QueueCapabilities → Option Nat
  | [] => none
  | caps :: rest =>
    if queueFamilySwitchMatches filter caps then some i
    else getQueueFamilyIdxGo (i + 1) filter rest

/-- GetQueueFamilyIdxWithCapability (vk_utils.h:102): index of the
first family the (fallthrough) switch accepts, else none. -/
def GetQueueFamilyIdxWithCapability (familyCapabilities : List QueueCapabilities)
    (filter : GraphicsQueueCapabilityType) : Option Nat :=
  getQueueFamilyIdxGo 0 filter familyCapabilities

/-! ## Physical device records and selection (renderer.cpp) -/

/-- VkPhysicalDeviceType; the scorer distinguishes discrete, integrated
and CPU, everything else falls to the switch default. -/
inductive VkPhysicalDeviceType where
  | VK_PHYSICAL_DEVICE_TYPE_OTHER
  | VK_PHYSICAL_DEVICE_TYPE_INTEGRATED_GPU
  | VK_PHYSICAL_DEVICE_TYPE_DISCRETE_GPU
  | VK_PHYSICAL_DEVICE_TYPE_VIRTUAL_GPU
  | VK_PHYSICAL_DEVICE_TYPE_CPU
deriving DecidableEq, Repr

/-- The fields of VkPhysicalDeviceLimits the code reads. -/
structure VkPhysicalDeviceLimits where
  maxImageDimension2D : Nat
deriving DecidableEq, Repr

/-- The fields of VkPhysicalDeviceProperties the selector reads. -/
structure VkPhysicalDeviceProperties where
  deviceType : VkPhysicalDeviceType
  limits : VkPhysicalDeviceLimits
deriving DecidableEq, Repr

/-- PhysicalDevice (vk_utils.h:88), restricted to the fields
selectPhysicalDevice reads; extensions are their name strings. -/
structure PhysicalDevice where
  properties : VkPhysicalDeviceProperties
  extensions : List String
  surfaceFormats : List VkSurfaceFormatKHR
  presentModes : List VkPresentModeKHR
deriving DecidableEq, Repr

/-- REQUIRED_DEVICE_EXTENSIONS (renderer.cpp:18):
VK_KHR_SWAPCHAIN_EXTENSION_NAME only. -/
def REQUIRED_DEVICE_EXTENSIONS : List String := ["VK_KHR_swapchain"]

/-- The extension check in selectPhysicalDevice (renderer.cpp:667-671):
start from the required set, erase every extension the device reports,
disqualify when something is left, i.e. accept iff every required name
appears among the device extensions. -/
def hasRequiredExtensions (device : PhysicalDevice) : Bool :=
  (REQUIRED_DEVICE_EXTENSIONS.filter (fun e => !(device.extensions.contains e))).isEmpty

/-- A device survives both `continue` filters of selectPhysicalDevice
(renderer.cpp:667-677): required extensions present and non-empty
present-mode and surface-format lists. -/
def isEligible (device : PhysicalDevice) : Bool :=
  hasRequiredExtensions device && !(device.presentModes.isEmpty || device.surfaceFormats.isEmpty)

/-- The score computation of selectPhysicalDevice (renderer.cpp:679-693):
type bonus plus maxImageDimension2D / 100 (uint32 division).  All terms
are non-negative and far below 2^31, so Nat is faithful to int32_t. -/
def deviceScore (device : PhysicalDevice) : Nat :=
  (match device.properties.deviceType with
   | .VK_PHYSICAL_DEVICE_TYPE_DISCRETE_GPU => 2000
   | .VK_PHYSICAL_DEVICE_TYPE_INTEGRATED_GPU => 500
   | .VK_PHYSICAL_DEVICE_TYPE_CPU => 50
   | _ => 0)
  + device.properties.limits.maxImageDimension2D / 100

/-- std::multimap<int32_t, size_t>::insert: the entry list is kept
sorted by key ascending, and (per C++11) an entry with a key equal to
existing ones is inserted at the upper bound of their range, i.e. after
them. -/
def multimapInsert (l : List (Nat × Nat)) (p : Nat × Nat) : List (Nat × Nat) :=
  match l with
  | [] => [p]
  | q :: rest => if p.1 < q.1 then p :: q :: rest else q :: multimapInsert rest p

/-- Candidate-building loop of selectPhysicalDevice
(renderer.cpp:666-696): enumerate devices, skip ineligible ones, insert
(score, index) into the multimap. -/
def candidatesGo (i : Nat) (acc : List (Nat × Nat)) :
    List PhysicalDevice → List (Nat × Nat)
  | [] => acc
  | device :: rest =>
    if isEligible device then candidatesGo (i + 1) (multimapInsert acc (deviceScore device, i)) rest
    else candidatesGo (i + 1) acc rest

/-- selectPhysicalDevice (renderer.cpp:663): the selected index is
`candidates.rbegin()->second`, i.e. the second component of the last
multimap entry; `none` models the MAPLE_FATAL path taken when the
multimap is empty (renderer.cpp:701). -/
def selectPhysicalDevice (devices : List PhysicalDevice) : Option Nat :=
  ((candidatesGo 0 [] devices).getLast?).map Prod.snd

/-! ## DrawFrame (renderer.cpp:118) as an event-emitting step function

The per-tick behaviour of `Renderer::Impl::DrawFrame` is embedded as a
pure function from the mutable state it reads and writes
(`mCurrentFrame`, `framebufferResized`) and the results the Vulkan
driver returns during the tick, to the successor state plus the ordered
list of externally visible actions the tick performs.  The code never
inspects the result of vkAcquireNextImageKHR (renderer.cpp:123), but
the driver still produces one, so it is part of the tick input. -/

/-- VkResult values DrawFrame distinguishes, plus one representative of
every other error code. -/
inductive VkResult where
  | VK_SUCCESS
  | VK_SUBOPTIMAL_KHR
  | VK_ERROR_OUT_OF_DATE_KHR
  | VK_ERROR_DEVICE_LOST
deriving DecidableEq, Repr

/-- MAX_FRAMES_IN_FLIGHT (renderer.cpp:30). -/
def MAX_FRAMES_IN_FLIGHT : Nat := 2

/-- The mutable renderer state DrawFrame touches. -/
structure DrawState where
  mCurrentFrame : Nat
  framebufferResized : Bool
deriving DecidableEq, Repr

/-- Driver results delivered during one tick. -/
structure TickInput where
  acquireResult : VkResult
  submitResult : VkResult
  presentResult : VkResult
deriving DecidableEq, Repr

/-- One externally visible action of a tick. -/
inductive Ev where
  | waitFence
  | resetFence
  | acquire
  | recordCmd
  | submit
  | present
  | clearResizeFlag
  | deviceWaitIdle
  | destroyFramebuffers
  | destroyImageViews
  | destroySwapchain
  | createSwapchain
  | createImageViews
  | createFramebuffers
  | destroyPipeline
  | createPipeline
  | advanceFrame
  | fatalExit
deriving DecidableEq, Repr

/-- recreateSwapChain (renderer.cpp:200): wait idle, destroy
framebuffers, image views, swapchain, then recreate swapchain, image
views, framebuffers.  It touches neither the pipeline nor the render
pass. -/
def recreateSwapChainEvents : List Ev :=
  [.deviceWaitIdle, .destroyFramebuffers, .destroyImageViews, .destroySwapchain,
   .createSwapchain, .createImageViews, .createFramebuffers]

/-- DrawFrame (renderer.cpp:118-169).  Wait/reset fence, acquire (result
ignored), record, submit (fatal unless VK_SUCCESS), present; on
out-of-date / suboptimal present result or a latched resize flag, clear
the flag and recreate the swapchain; any other non-success present
result is fatal; finally advance mCurrentFrame modulo
MAX_FRAMES_IN_FLIGHT.  A fatal path terminates the process, so the
state is returned unchanged with a trailing fatalExit event. -/
def DrawFrame (s : DrawState) (inp : TickInput) : DrawState × List Ev :=
  let pre : List Ev := [.waitFence, .resetFence, .acquire, .recordCmd, .submit]
  if inp.submitResult ≠ .VK_SUCCESS then (s, pre ++ [.fatalExit])
  else
    let pre := pre ++ [.present]
    if inp.presentResult = .VK_ERROR_OUT_OF_DATE_KHR ∨ inp.presentResult = .VK_SUBOPTIMAL_KHR ∨
        s.framebufferResized = true then
      ({ mCurrentFrame := (s.mCurrentFrame + 1) % MAX_FRAMES_IN_FLIGHT, framebufferResized := false },
       pre ++ [.clearResizeFlag] ++ recreateSwapChainEvents ++ [.advanceFrame])
    else if inp.presentResult ≠ .VK_SUCCESS then (s, pre ++ [.fatalExit])
    else
      ({ mCurrentFrame := (s.mCurrentFrame + 1) % MAX_FRAMES_IN_FLIGHT,
         framebufferResized := s.framebufferResized },
       pre ++ [.advanceFrame])

/-- SetFrameBufferResized (renderer.cpp:171). -/
def SetFrameBufferResized (s : DrawState) : DrawState :=
  { s with framebufferResized := true }

/-- An action the outside world performs on the renderer between or at
ticks: one DrawFrame call, or one resize notification from the
windowing collaborator. -/
inductive Action where
  | tick (inp : TickInput)
  | notifyResize
deriving DecidableEq, Repr

/-- One action applied to the state, with its emitted events. -/
def stepAction (s : DrawState) : Action → DrawState × List Ev
  | .tick inp => DrawFrame s inp
  | .notifyResize => (SetFrameBufferResized s, [])

/-- Run a sequence of actions, concatenating their events. -/
def runActions (s : DrawState) : List Action → DrawState × List Ev
  | [] => (s, [])
  | a :: rest =>
    let r := stepAction s a
    let r' := runActions r.1 rest
    (r'.1, r.2 ++ r'.2)

/-- Number of DrawFrame ticks in an action sequence. -/
def tickCount : List Action → Nat
  | [] => 0
  | .tick _ :: rest => tickCount rest + 1
  | .notifyResize :: rest => tickCount rest

/-- The renderer's initial state: mCurrentFrame = 0,
framebufferResized = false (renderer.cpp:74,78). -/
def initialDrawState : DrawState :=
  { mCurrentFrame := 0, framebufferResized := false }

/-! ## Concrete inputs used by witnesses and counterexamples -/

/-- A queue family advertising only the compute capability. -/
def computeOnlyFamily : QueueCapabilities :=
  { QueueCount := 1, Graphics := false, Compute := true, Transfer := false,
    Sparse_binding := false, Protected := false, Video_decode := false,
    Video_encode := false, Optical_flow := false, Present := false }

/-- An eligible device record of the given type and 2D-image limit. -/
def mkDevice (t : VkPhysicalDeviceType) (dim : Nat) : PhysicalDevice :=
  { properties := { deviceType := t, limits := { maxImageDimension2D := dim } },
    extensions := ["VK_KHR_swapchain"],
    surfaceFormats := [{ format := VK_FORMAT_B8G8R8A8_SRGB, colorSpace := VK_COLOR_SPACE_SRGB_NONLINEAR_KHR }],
    presentModes := [.VK_PRESENT_MODE_FIFO_KHR] }

/-- An integrated and a discrete device with the same 2D-image limit. -/
def deviceListA : List PhysicalDevice :=
  [mkDevice .VK_PHYSICAL_DEVICE_TYPE_INTEGRATED_GPU 1000,
   mkDevice .VK_PHYSICAL_DEVICE_TYPE_DISCRETE_GPU 1000]

/-- Two identical (hence equally scored) eligible discrete devices. -/
def tiedDeviceList : List PhysicalDevice :=
  [mkDevice .VK_PHYSICAL_DEVICE_TYPE_DISCRETE_GPU 1000,
   mkDevice .VK_PHYSICAL_DEVICE_TYPE_DISCRETE_GPU 1000]

/-! ## Derived forms of selectPhysicalDevice used by the proofs.
`runMax`/`selectGo` compute the multimap's last entry directly (last
maximum wins); the bridge lemma below proves them equal to the
multimap-based definition, which is the one embedding the source. -/

/-- Sortedness (by key, ascending) of a multimap entry list. -/
abbrev keysSorted (l : List (Nat × Nat)) : Prop :=
  List.Chain' (fun a b => a.1 ≤ b.1) l

/-- Last-wins running maximum: what the last entry of the multimap
becomes after one more insertion. -/
def runMax (best : Option (Nat × Nat)) (p : Nat × Nat) : Option (Nat × Nat) :=
  match best with
  | none => some p
  | some l => if p.1 < l.1 then some l else some p

/-- Selection loop rephrased over runMax. -/
def selectGo (i : Nat) (best : Option (Nat × Nat)) :
    List PhysicalDevice → Option (Nat × Nat)
  | [] => best
  | device :: rest =>
    if isEligible device then selectGo (i + 1) (runMax best (deviceScore device, i)) rest
    else selectGo (i + 1) best rest

end Maple

/-! # Theorems -/

namespace Maple

/-! ## ChooseOptimalPresentMode -/

/-- If the list holds neither MAILBOX nor FIFO, the loop never writes
nor returns early, so the accumulator is returned untouched. -/
theorem choosePresentModeGo_no_match (modes : List VkPresentModeKHR) :
    ∀ (i : Nat) (acc : Option Nat),
    VkPresentModeKHR.VK_PRESENT_MODE_MAILBOX_KHR ∉ modes →
    VkPresentModeKHR.VK_PRESENT_MODE_FIFO_KHR ∉ modes →
    choosePresentModeGo i acc modes = acc := by
  induction modes with
  | nil => intro i acc _ _; rfl
  | cons m rest ih =>
    intro i acc hm hf
    simp only [List.mem_cons, not_or] at hm hf
    obtain ⟨hm1, hm2⟩ := hm
    obtain ⟨hf1, hf2⟩ := hf
    simp only [choosePresentModeGo, if_neg (Ne.symm hm1), if_neg (Ne.symm hf1)]
    exact ih _ _ hm2 hf2

/-- If MAILBOX occurs, the loop returns the index of a MAILBOX entry
(`i` is the offset the enumeration counter starts at). -/
theorem choosePresentModeGo_mailbox (modes : List VkPresentModeKHR) :
    ∀ (i : Nat) (acc : Option Nat),
    VkPresentModeKHR.VK_PRESENT_MODE_MAILBOX_KHR ∈ modes →
    ∃ j, j < modes.length ∧ choosePresentModeGo i acc modes = some (i + j) ∧
      modes[j]? = some .VK_PRESENT_MODE_MAILBOX_KHR := by
  induction modes with
  | nil => intro i acc h; exact absurd h (List.not_mem_nil _)
  | cons m rest ih =>
    intro i acc h
    by_cases hm : m = .VK_PRESENT_MODE_MAILBOX_KHR
    · refine ⟨0, by simp, ?_, by simp [hm]⟩
      simp [choosePresentModeGo, hm]
    · have hmem : VkPresentModeKHR.VK_PRESENT_MODE_MAILBOX_KHR ∈ rest := by
        rcases List.mem_cons.mp h with h1 | h1
        · exact absurd h1.symm hm
        · exact h1
      by_cases hf : m = .VK_PRESENT_MODE_FIFO_KHR
      · obtain ⟨j, hj, hgo, hidx⟩ := ih (i + 1) (some i) hmem
        refine ⟨j + 1, by simpa using hj, ?_, by simpa using hidx⟩
        simp only [choosePresentModeGo, if_neg hm, if_pos hf]
        rw [hgo]; congr 1; omega
      · obtain ⟨j, hj, hgo, hidx⟩ := ih (i + 1) acc hmem
        refine ⟨j + 1, by simpa using hj, ?_, by simpa using hidx⟩
        simp only [choosePresentModeGo, if_neg hm, if_neg hf]
        rw [hgo]; congr 1; omega

/-- If MAILBOX does not occur but FIFO does, the loop returns the index
of a FIFO entry. -/
theorem choosePresentModeGo_fifo (modes : List VkPresentModeKHR) :
    ∀ (i : Nat) (acc : Option Nat),
    VkPresentModeKHR.VK_PRESENT_MODE_MAILBOX_KHR ∉ modes →
    VkPresentModeKHR.VK_PRESENT_MODE_FIFO_KHR ∈ modes →
    ∃ j, j < modes.length ∧ choosePresentModeGo i acc modes = some (i + j) ∧
      modes[j]? = some .VK_PRESENT_MODE_FIFO_KHR := by
  induction modes with
  | nil => intro i acc _ h; exact absurd h (List.not_mem_nil _)
  | cons m rest ih =>
    intro i acc hnm hf
    simp only [List.mem_cons, not_or] at hnm
    obtain ⟨hm1, hm2⟩ := hnm
    by_cases hmf : m = .VK_PRESENT_MODE_FIFO_KHR
    · by_cases hrest : VkPresentModeKHR.VK_PRESENT_MODE_FIFO_KHR ∈ rest
      · obtain ⟨j, hj, hgo, hidx⟩ := ih (i + 1) (some i) hm2 hrest
        refine ⟨j + 1, by simpa using hj, ?_, by simpa using hidx⟩
        simp only [choosePresentModeGo, if_neg (Ne.symm hm1), if_pos hmf]
        rw [hgo]; congr 1; omega
      · refine ⟨0, by simp, ?_, by simp [hmf]⟩
        simp only [choosePresentModeGo, if_neg (Ne.symm hm1), if_pos hmf]
        rw [choosePresentModeGo_no_match rest (i + 1) (some i) hm2 hrest]
        simp
    · have hmem : VkPresentModeKHR.VK_PRESENT_MODE_FIFO_KHR ∈ rest := by
        rcases List.mem_cons.mp hf with h1 | h1
        · exact absurd h1.symm hmf
        · exact h1
      obtain ⟨j, hj, hgo, hidx⟩ := ih (i + 1) acc hm2 hmem
      refine ⟨j + 1, by simpa using hj, ?_, by simpa using hidx⟩
      simp only [choosePresentModeGo, if_neg (Ne.symm hm1), if_neg hmf]
      rw [hgo]; congr 1; omega

/-- Claim C6: for every present-mode list containing FIFO,
ChooseOptimalPresentMode returns an in-bounds index that points at a
MAILBOX entry whenever MAILBOX appears anywhere in the list, and at a
FIFO entry otherwise. -/
theorem C6_present_mode_preference (modes : List VkPresentModeKHR)
    (hfifo : VkPresentModeKHR.VK_PRESENT_MODE_FIFO_KHR ∈ modes) :
    ∃ k, ChooseOptimalPresentMode modes = some k ∧ k < modes.length ∧
      (VkPresentModeKHR.VK_PRESENT_MODE_MAILBOX_KHR ∈ modes →
        modes[k]? = some .VK_PRESENT_MODE_MAILBOX_KHR) ∧
      (VkPresentModeKHR.VK_PRESENT_MODE_MAILBOX_KHR ∉ modes →
        modes[k]? = some .VK_PRESENT_MODE_FIFO_KHR) := by
  by_cases hm : VkPresentModeKHR.VK_PRESENT_MODE_MAILBOX_KHR ∈ modes
  · obtain ⟨j, hj, hgo, hidx⟩ := choosePresentModeGo_mailbox modes 0 none hm
    exact ⟨j, by simpa [ChooseOptimalPresentMode] using hgo, hj,
      fun _ => hidx, fun h => absurd hm h⟩
  · obtain ⟨j, hj, hgo, hidx⟩ := choosePresentModeGo_fifo modes 0 none hm hfifo
    exact ⟨j, by simpa [ChooseOptimalPresentMode] using hgo, hj,
      fun h => absurd h hm, fun _ => hidx⟩

/-- Witness for C6 on the concrete list [FIFO, MAILBOX]. -/
theorem C6_present_mode_preference_witness :
    ∃ k, ChooseOptimalPresentMode
        [VkPresentModeKHR.VK_PRESENT_MODE_FIFO_KHR, .VK_PRESENT_MODE_MAILBOX_KHR] = some k ∧
      k < ([VkPresentModeKHR.VK_PRESENT_MODE_FIFO_KHR, .VK_PRESENT_MODE_MAILBOX_KHR] : List VkPresentModeKHR).length ∧
      (VkPresentModeKHR.VK_PRESENT_MODE_MAILBOX_KHR ∈
          ([VkPresentModeKHR.VK_PRESENT_MODE_FIFO_KHR, .VK_PRESENT_MODE_MAILBOX_KHR] : List VkPresentModeKHR) →
        ([VkPresentModeKHR.VK_PRESENT_MODE_FIFO_KHR, .VK_PRESENT_MODE_MAILBOX_KHR] : List VkPresentModeKHR)[k]? =
          some .VK_PRESENT_MODE_MAILBOX_KHR) ∧
      (VkPresentModeKHR.VK_PRESENT_MODE_MAILBOX_KHR ∉
          ([VkPresentModeKHR.VK_PRESENT_MODE_FIFO_KHR, .VK_PRESENT_MODE_MAILBOX_KHR] : List VkPresentModeKHR) →
        ([VkPresentModeKHR.VK_PRESENT_MODE_FIFO_KHR, .VK_PRESENT_MODE_MAILBOX_KHR] : List VkPresentModeKHR)[k]? =
          some .VK_PRESENT_MODE_FIFO_KHR) :=
  C6_present_mode_preference _ (by decide)

/-- Claim C10: when a present-mode list holds neither MAILBOX nor FIFO
the function returns the uninitialized fifoIdx local (embedded as
`none`, i.e. no defined value), and the result is a defined, in-bounds
index exactly under the precondition that MAILBOX or FIFO is present. -/
theorem C10_uninitialized_fifo_index :
    (∀ modes : List VkPresentModeKHR,
      VkPresentModeKHR.VK_PRESENT_MODE_MAILBOX_KHR ∉ modes →
      VkPresentModeKHR.VK_PRESENT_MODE_FIFO_KHR ∉ modes →
      ChooseOptimalPresentMode modes = none) ∧
    (∀ modes : List VkPresentModeKHR,
      (VkPresentModeKHR.VK_PRESENT_MODE_MAILBOX_KHR ∈ modes ∨
        VkPresentModeKHR.VK_PRESENT_MODE_FIFO_KHR ∈ modes) →
      ∃ k, ChooseOptimalPresentMode modes = some k ∧ k < modes.length) := by
  constructor
  · intro modes hm hf
    simpa [ChooseOptimalPresentMode] using choosePresentModeGo_no_match modes 0 none hm hf
  · intro modes h
    by_cases hm : VkPresentModeKHR.VK_PRESENT_MODE_MAILBOX_KHR ∈ modes
    · obtain ⟨j, hj, hgo, _⟩ := choosePresentModeGo_mailbox modes 0 none hm
      exact ⟨j, by simpa [ChooseOptimalPresentMode] using hgo, hj⟩
    · obtain ⟨j, hj, hgo, _⟩ := choosePresentModeGo_fifo modes 0 none hm (h.resolve_left hm)
      exact ⟨j, by simpa [ChooseOptimalPresentMode] using hgo, hj⟩

/-- Witness for C10: the empty list and a MAILBOX-or-FIFO-free list
produce the undefined value; a FIFO-bearing list produces an in-bounds
index. -/
theorem C10_uninitialized_fifo_index_witness :
    ChooseOptimalPresentMode [VkPresentModeKHR.VK_PRESENT_MODE_IMMEDIATE_KHR] = none ∧
    ∃ k, ChooseOptimalPresentMode [VkPresentModeKHR.VK_PRESENT_MODE_FIFO_KHR] = some k ∧
      k < ([VkPresentModeKHR.VK_PRESENT_MODE_FIFO_KHR] : List VkPresentModeKHR).length :=
  ⟨C10_uninitialized_fifo_index.1 _ (by decide) (by decide),
   C10_uninitialized_fifo_index.2 _ (Or.inr (by decide))⟩

/-! ## ChooseOptimalSwapExtent -/

/-- std::clamp into a well-formed interval: in bounds, and equal to
lo / the value / hi on the below / inside / above cases. -/
theorem stdClamp_spec (v lo hi : Nat) (h : lo ≤ hi) :
    lo ≤ stdClamp v lo hi ∧ stdClamp v lo hi ≤ hi ∧
    (v < lo → stdClamp v lo hi = lo) ∧
    (lo ≤ v → v ≤ hi → stdClamp v lo hi = v) ∧
    (hi < v → stdClamp v lo hi = hi) := by
  unfold stdClamp
  split_ifs <;> omega

/-- Claim C7: ChooseOptimalSwapExtent returns currentExtent unmodified
when its width differs from the uint32 sentinel; otherwise it clamps
the framebuffer size component-wise into [minImageExtent,
maxImageExtent], covering inputs below, within and above the range. -/
theorem C7_choose_extent (capabilities : VkSurfaceCapabilitiesKHR)
    (framebufferWidth framebufferHeight : Nat) :
    (capabilities.currentExtent.width ≠ UINT32_MAX →
      ChooseOptimalSwapExtent capabilities framebufferWidth framebufferHeight =
        capabilities.currentExtent) ∧
    (capabilities.currentExtent.width = UINT32_MAX →
      (capabilities.minImageExtent.width ≤ capabilities.maxImageExtent.width →
        (capabilities.minImageExtent.width ≤
            (ChooseOptimalSwapExtent capabilities framebufferWidth framebufferHeight).width ∧
          (ChooseOptimalSwapExtent capabilities framebufferWidth framebufferHeight).width ≤
            capabilities.maxImageExtent.width) ∧
        (framebufferWidth < capabilities.minImageExtent.width →
          (ChooseOptimalSwapExtent capabilities framebufferWidth framebufferHeight).width =
            capabilities.minImageExtent.width) ∧
        (capabilities.minImageExtent.width ≤ framebufferWidth →
          framebufferWidth ≤ capabilities.maxImageExtent.width →
          (ChooseOptimalSwapExtent capabilities framebufferWidth framebufferHeight).width =
            framebufferWidth) ∧
        (capabilities.maxImageExtent.width < framebufferWidth →
          (ChooseOptimalSwapExtent capabilities framebufferWidth framebufferHeight).width =
            capabilities.maxImageExtent.width)) ∧
      (capabilities.minImageExtent.height ≤ capabilities.maxImageExtent.height →
        (capabilities.minImageExtent.height ≤
            (ChooseOptimalSwapExtent capabilities framebufferWidth framebufferHeight).height ∧
          (ChooseOptimalSwapExtent capabilities framebufferWidth framebufferHeight).height ≤
            capabilities.maxImageExtent.height) ∧
        (framebufferHeight < capabilities.minImageExtent.height →
          (ChooseOptimalSwapExtent capabilities framebufferWidth framebufferHeight).height =
            capabilities.minImageExtent.height) ∧
        (capabilities.minImageExtent.height ≤ framebufferHeight →
          framebufferHeight ≤ capabilities.maxImageExtent.height →
          (ChooseOptimalSwapExtent capabilities framebufferWidth framebufferHeight).height =
            framebufferHeight) ∧
        (capabilities.maxImageExtent.height < framebufferHeight →
          (ChooseOptimalSwapExtent capabilities framebufferWidth framebufferHeight).height =
            capabilities.maxImageExtent.height))) := by
  constructor
  · intro h
    simp [ChooseOptimalSwapExtent, h]
  · intro h
    constructor
    · intro hwf
      obtain ⟨h1, h2, h3, h4, h5⟩ :=
        stdClamp_spec framebufferWidth capabilities.minImageExtent.width
          capabilities.maxImageExtent.width hwf
      simp only [ChooseOptimalSwapExtent, h, ne_eq, not_true_eq_false, if_false]
      exact ⟨⟨h1, h2⟩, h3, h4, h5⟩
    · intro hwf
      obtain ⟨h1, h2, h3, h4, h5⟩ :=
        stdClamp_spec framebufferHeight capabilities.minImageExtent.height
          capabilities.maxImageExtent.height hwf
      simp only [ChooseOptimalSwapExtent, h, ne_eq, not_true_eq_false, if_false]
      exact ⟨⟨h1, h2⟩, h3, h4, h5⟩

/-- Witness for C7: a fixed-extent record, and a sentinel record with
the minimum and maximum interval [100, 500]. -/
theorem C7_choose_extent_witness :
    ((⟨1, 2, ⟨300, 200⟩, ⟨100, 100⟩, ⟨500, 500⟩⟩ :
        VkSurfaceCapabilitiesKHR).currentExtent.width ≠ UINT32_MAX ∧
      ChooseOptimalSwapExtent ⟨1, 2, ⟨300, 200⟩, ⟨100, 100⟩, ⟨500, 500⟩⟩ 7 900 =
        (⟨1, 2, ⟨300, 200⟩, ⟨100, 100⟩, ⟨500, 500⟩⟩ :
          VkSurfaceCapabilitiesKHR).currentExtent) ∧
    (ChooseOptimalSwapExtent ⟨1, 2, ⟨UINT32_MAX, 200⟩, ⟨100, 100⟩, ⟨500, 500⟩⟩ 7 900).width = 100 ∧
    (ChooseOptimalSwapExtent ⟨1, 2, ⟨UINT32_MAX, 200⟩, ⟨100, 100⟩, ⟨500, 500⟩⟩ 7 900).height = 500 ∧
    (ChooseOptimalSwapExtent ⟨1, 2, ⟨UINT32_MAX, 200⟩, ⟨100, 100⟩, ⟨500, 500⟩⟩ 250 900).width = 250 :=
  ⟨⟨by decide,
    (C7_choose_extent ⟨1, 2, ⟨300, 200⟩, ⟨100, 100⟩, ⟨500, 500⟩⟩ 7 900).1 (by decide)⟩,
   ((C7_choose_extent ⟨1, 2, ⟨UINT32_MAX, 200⟩, ⟨100, 100⟩, ⟨500, 500⟩⟩ 7 900).2
      rfl).1 (by decide) |>.2.1 (by decide),
   ((C7_choose_extent ⟨1, 2, ⟨UINT32_MAX, 200⟩, ⟨100, 100⟩, ⟨500, 500⟩⟩ 7 900).2
      rfl).2 (by decide) |>.2.2.2 (by decide),
   ((C7_choose_extent ⟨1, 2, ⟨UINT32_MAX, 200⟩, ⟨100, 100⟩, ⟨500, 500⟩⟩ 250 900).2
      rfl).1 (by decide) |>.2.2.1 (by decide) (by decide)⟩

/-! ## ChooseOptimalSurfaceFormat -/

/-- If no entry matches (B8G8R8A8_SRGB, SRGB_NONLINEAR), the scan
returns none. -/
theorem chooseSurfaceFormatGo_no_match (formats : List VkSurfaceFormatKHR) :
    ∀ i : Nat,
    (∀ f ∈ formats,
      ¬(f.format = VK_FORMAT_B8G8R8A8_SRGB ∧ f.colorSpace = VK_COLOR_SPACE_SRGB_NONLINEAR_KHR)) →
    chooseSurfaceFormatGo i formats = none := by
  induction formats with
  | nil => intro i _; rfl
  | cons f rest ih =>
    intro i h
    simp only [chooseSurfaceFormatGo, if_neg (h f (List.mem_cons_self f rest))]
    exact ih _ fun g hg => h g (List.mem_cons_of_mem f hg)

/-- If entry j is the first match, the scan started at offset i returns
i + j. -/
theorem chooseSurfaceFormatGo_first_match (formats : List VkSurfaceFormatKHR) :
    ∀ (i j : Nat) (f : VkSurfaceFormatKHR), formats[j]? = some f →
    (f.format = VK_FORMAT_B8G8R8A8_SRGB ∧ f.colorSpace = VK_COLOR_SPACE_SRGB_NONLINEAR_KHR) →
    (∀ j' f', j' < j → formats[j']? = some f' →
      ¬(f'.format = VK_FORMAT_B8G8R8A8_SRGB ∧ f'.colorSpace = VK_COLOR_SPACE_SRGB_NONLINEAR_KHR)) →
    chooseSurfaceFormatGo i formats = some (i + j) := by
  induction formats with
  | nil => intro i j f hj; simp at hj
  | cons g rest ih =>
    intro i j f hj hf hfirst
    match j with
    | 0 =>
      simp only [List.getElem?_cons_zero, Option.some.injEq] at hj
      subst hj
      simp [chooseSurfaceFormatGo, if_pos hf]
    | j' + 1 =>
      simp only [List.getElem?_cons_succ] at hj
      have hg : ¬(g.format = VK_FORMAT_B8G8R8A8_SRGB ∧
          g.colorSpace = VK_COLOR_SPACE_SRGB_NONLINEAR_KHR) :=
        hfirst 0 g (Nat.succ_pos _) (by simp)
      simp only [chooseSurfaceFormatGo, if_neg hg]
      have := ih (i + 1) j' f hj hf fun j'' f'' hlt hidx =>
        hfirst (j'' + 1) f'' (by omega) (by simpa using hidx)
      rw [this]; congr 1; omega

/-- Claim C8: ChooseOptimalSurfaceFormat returns the index of the first
(B8G8R8A8_SRGB, SRGB_NONLINEAR) entry when one exists anywhere in the
list, and 0 when no entry matches. -/
theorem C8_surface_format_choice (formats : List VkSurfaceFormatKHR) :
    ((∀ f ∈ formats,
        ¬(f.format = VK_FORMAT_B8G8R8A8_SRGB ∧ f.colorSpace = VK_COLOR_SPACE_SRGB_NONLINEAR_KHR)) →
      ChooseOptimalSurfaceFormat formats = 0) ∧
    (∀ (j : Nat) (f : VkSurfaceFormatKHR), formats[j]? = some f →
      (f.format = VK_FORMAT_B8G8R8A8_SRGB ∧ f.colorSpace = VK_COLOR_SPACE_SRGB_NONLINEAR_KHR) →
      (∀ j' f', j' < j → formats[j']? = some f' →
        ¬(f'.format = VK_FORMAT_B8G8R8A8_SRGB ∧ f'.colorSpace = VK_COLOR_SPACE_SRGB_NONLINEAR_KHR)) →
      ChooseOptimalSurfaceFormat formats = j) := by
  constructor
  · intro h
    simp [ChooseOptimalSurfaceFormat, chooseSurfaceFormatGo_no_match formats 0 h]
  · intro j f hj hf hfirst
    simpa [ChooseOptimalSurfaceFormat] using
      congrArg (Option.getD · 0) (chooseSurfaceFormatGo_first_match formats 0 j f hj hf hfirst)

/-- Witness for C8: a list whose only match sits at index 1, and a
matchless list. -/
theorem C8_surface_format_choice_witness :
    ChooseOptimalSurfaceFormat [⟨49, 0⟩, ⟨50, 1⟩] = 0 ∧
    ChooseOptimalSurfaceFormat [⟨49, 0⟩, ⟨50, 0⟩, ⟨50, 0⟩] = 1 :=
  ⟨(C8_surface_format_choice _).1 (by decide),
   (C8_surface_format_choice _).2 1 ⟨50, 0⟩ (by decide) (by decide)
     (by
      intro j' f' hlt hidx
      have hz : j' = 0 := by omega
      subst hz
      simp only [List.getElem?_cons_zero, Option.some.injEq] at hidx
      subst hidx
      decide)⟩

/-! ## GetQueueFamilyIdxWithCapability -/

/-- Claim C3: the switch in GetQueueFamilyIdxWithCapability falls
through, so with the GRAPHICS filter a family advertising only compute
is accepted: the call returns index 0 although no family in the list
supports the graphics capability, contradicting the claimed
single-capability semantics ("none exactly when no family supports
C"). -/
theorem C3_fallthrough_on_failing_input :
    GetQueueFamilyIdxWithCapability [computeOnlyFamily] .GRAPHICS = some 0 ∧
    computeOnlyFamily.Graphics = false := by
  decide

/-! ## DrawFrame: acquisition result, recreation, frame index -/

/-- Counterexample to C1: a tick whose acquisition reports out-of-date
(all later driver results successful) still records, submits and
presents, and performs no swapchain recreation — the remainder of the
tick is not skipped. -/
theorem C1_acquire_ignored_counterexample :
    Ev.recordCmd ∈ (DrawFrame initialDrawState
        ⟨.VK_ERROR_OUT_OF_DATE_KHR, .VK_SUCCESS, .VK_SUCCESS⟩).2 ∧
    Ev.submit ∈ (DrawFrame initialDrawState
        ⟨.VK_ERROR_OUT_OF_DATE_KHR, .VK_SUCCESS, .VK_SUCCESS⟩).2 ∧
    Ev.present ∈ (DrawFrame initialDrawState
        ⟨.VK_ERROR_OUT_OF_DATE_KHR, .VK_SUCCESS, .VK_SUCCESS⟩).2 ∧
    Ev.createSwapchain ∉ (DrawFrame initialDrawState
        ⟨.VK_ERROR_OUT_OF_DATE_KHR, .VK_SUCCESS, .VK_SUCCESS⟩).2 := by
  decide

/-- Claim C1 as amended: DrawFrame never inspects the acquisition
status — a tick behaves identically for every acquisition result — and
swapchain recreation is triggered exactly when the present call reports
out-of-date or suboptimal or the resize latch is set (with a successful
submission). -/
theorem C1_acquire_result_ignored (s : DrawState) (a a' sub p : VkResult) :
    DrawFrame s ⟨a, sub, p⟩ = DrawFrame s ⟨a', sub, p⟩ ∧
    (Ev.createSwapchain ∈ (DrawFrame s ⟨a, sub, p⟩).2 ↔
      sub = .VK_SUCCESS ∧ (p = .VK_ERROR_OUT_OF_DATE_KHR ∨ p = .VK_SUBOPTIMAL_KHR ∨
        s.framebufferResized = true)) := by
  refine ⟨rfl, ?_⟩
  obtain ⟨f, r⟩ := s
  cases r <;> cases sub <;> cases p <;>
    simp [DrawFrame, recreateSwapChainEvents]

/-- Counterexample to C4: on a tick whose present call reports
out-of-date, the swapchain is destroyed and recreated once, but the
pipeline is neither destroyed nor recreated; and with the resize latch
set, the latch is cleared before the recreation is performed, not after
it. -/
theorem C4_pipeline_not_recreated_counterexample :
    (DrawFrame initialDrawState
        ⟨.VK_SUCCESS, .VK_SUCCESS, .VK_ERROR_OUT_OF_DATE_KHR⟩).2.count Ev.createSwapchain = 1 ∧
    (DrawFrame initialDrawState
        ⟨.VK_SUCCESS, .VK_SUCCESS, .VK_ERROR_OUT_OF_DATE_KHR⟩).2.count Ev.destroyPipeline = 0 ∧
    (DrawFrame initialDrawState
        ⟨.VK_SUCCESS, .VK_SUCCESS, .VK_ERROR_OUT_OF_DATE_KHR⟩).2.count Ev.createPipeline = 0 ∧
    (DrawFrame ⟨0, true⟩ ⟨.VK_SUCCESS, .VK_SUCCESS, .VK_SUCCESS⟩).2.indexOf Ev.clearResizeFlag <
      (DrawFrame ⟨0, true⟩ ⟨.VK_SUCCESS, .VK_SUCCESS, .VK_SUCCESS⟩).2.indexOf Ev.createSwapchain := by
  decide

/-- Claim C4 as amended: on every tick in which the present call
reports out-of-date or suboptimal, or the resize latch is set (and the
submission succeeded), the swapchain, image views and framebuffers are
each destroyed and recreated exactly once before the tick ends (hence
before the next acquisition); the pipeline is neither destroyed nor
recreated; and the latch ends the tick cleared, the clear being issued
immediately before the recreation. -/
theorem C4_recreation_events (s : DrawState) (inp : TickInput)
    (hsub : inp.submitResult = .VK_SUCCESS)
    (htrig : inp.presentResult = .VK_ERROR_OUT_OF_DATE_KHR ∨
      inp.presentResult = .VK_SUBOPTIMAL_KHR ∨ s.framebufferResized = true) :
    (DrawFrame s inp).2.count Ev.destroyFramebuffers = 1 ∧
    (DrawFrame s inp).2.count Ev.destroyImageViews = 1 ∧
    (DrawFrame s inp).2.count Ev.destroySwapchain = 1 ∧
    (DrawFrame s inp).2.count Ev.createSwapchain = 1 ∧
    (DrawFrame s inp).2.count Ev.createImageViews = 1 ∧
    (DrawFrame s inp).2.count Ev.createFramebuffers = 1 ∧
    (DrawFrame s inp).2.count Ev.destroyPipeline = 0 ∧
    (DrawFrame s inp).2.count Ev.createPipeline = 0 ∧
    (DrawFrame s inp).2.count Ev.clearResizeFlag = 1 ∧
    (DrawFrame s inp).2.indexOf Ev.clearResizeFlag <
      (DrawFrame s inp).2.indexOf Ev.createSwapchain ∧
    (DrawFrame s inp).1.framebufferResized = false := by
  obtain ⟨a, sub, p⟩ := inp
  simp only at hsub htrig
  subst hsub
  have hevs : (DrawFrame s ⟨a, .VK_SUCCESS, p⟩).2 =
      [Ev.waitFence, Ev.resetFence, Ev.acquire, Ev.recordCmd, Ev.submit, Ev.present,
       Ev.clearResizeFlag, Ev.deviceWaitIdle, Ev.destroyFramebuffers, Ev.destroyImageViews,
       Ev.destroySwapchain, Ev.createSwapchain, Ev.createImageViews, Ev.createFramebuffers,
       Ev.advanceFrame] := by
    simp [DrawFrame, htrig, recreateSwapChainEvents]
  have hflag : (DrawFrame s ⟨a, .VK_SUCCESS, p⟩).1.framebufferResized = false := by
    simp [DrawFrame, htrig]
  rw [hevs, hflag]
  refine ⟨?_, ?_, ?_, ?_, ?_, ?_, ?_, ?_, ?_, ?_, rfl⟩ <;> decide

/-- Witness for C4 on a concrete out-of-date present tick. -/
theorem C4_recreation_events_witness :
    (DrawFrame initialDrawState
        ⟨.VK_SUCCESS, .VK_SUCCESS, .VK_ERROR_OUT_OF_DATE_KHR⟩).2.count Ev.destroyFramebuffers = 1 ∧
    (DrawFrame initialDrawState
        ⟨.VK_SUCCESS, .VK_SUCCESS, .VK_ERROR_OUT_OF_DATE_KHR⟩).2.count Ev.destroyImageViews = 1 ∧
    (DrawFrame initialDrawState
        ⟨.VK_SUCCESS, .VK_SUCCESS, .VK_ERROR_OUT_OF_DATE_KHR⟩).2.count Ev.destroySwapchain = 1 ∧
    (DrawFrame initialDrawState
        ⟨.VK_SUCCESS, .VK_SUCCESS, .VK_ERROR_OUT_OF_DATE_KHR⟩).2.count Ev.createSwapchain = 1 ∧
    (DrawFrame initialDrawState
        ⟨.VK_SUCCESS, .VK_SUCCESS, .VK_ERROR_OUT_OF_DATE_KHR⟩).2.count Ev.createImageViews = 1 ∧
    (DrawFrame initialDrawState
        ⟨.VK_SUCCESS, .VK_SUCCESS, .VK_ERROR_OUT_OF_DATE_KHR⟩).2.count Ev.createFramebuffers = 1 ∧
    (DrawFrame initialDrawState
        ⟨.VK_SUCCESS, .VK_SUCCESS, .VK_ERROR_OUT_OF_DATE_KHR⟩).2.count Ev.destroyPipeline = 0 ∧
    (DrawFrame initialDrawState
        ⟨.VK_SUCCESS, .VK_SUCCESS, .VK_ERROR_OUT_OF_DATE_KHR⟩).2.count Ev.createPipeline = 0 ∧
    (DrawFrame initialDrawState
        ⟨.VK_SUCCESS, .VK_SUCCESS, .VK_ERROR_OUT_OF_DATE_KHR⟩).2.count Ev.clearResizeFlag = 1 ∧
    (DrawFrame initialDrawState
        ⟨.VK_SUCCESS, .VK_SUCCESS, .VK_ERROR_OUT_OF_DATE_KHR⟩).2.indexOf Ev.clearResizeFlag <
      (DrawFrame initialDrawState
        ⟨.VK_SUCCESS, .VK_SUCCESS, .VK_ERROR_OUT_OF_DATE_KHR⟩).2.indexOf Ev.createSwapchain ∧
    (DrawFrame initialDrawState
        ⟨.VK_SUCCESS, .VK_SUCCESS, .VK_ERROR_OUT_OF_DATE_KHR⟩).1.framebufferResized = false :=
  C4_recreation_events initialDrawState ⟨.VK_SUCCESS, .VK_SUCCESS, .VK_ERROR_OUT_OF_DATE_KHR⟩
    rfl (Or.inl rfl)

/-- A non-fatal tick always advances the frame counter modulo
MAX_FRAMES_IN_FLIGHT, in every branch. -/
theorem DrawFrame_nonfatal_advance (s : DrawState) (inp : TickInput)
    (h : Ev.fatalExit ∉ (DrawFrame s inp).2) :
    (DrawFrame s inp).1.mCurrentFrame = (s.mCurrentFrame + 1) % MAX_FRAMES_IN_FLIGHT := by
  by_cases h1 : inp.submitResult = .VK_SUCCESS
  · by_cases h2 : inp.presentResult = .VK_ERROR_OUT_OF_DATE_KHR ∨
        inp.presentResult = .VK_SUBOPTIMAL_KHR ∨ s.framebufferResized = true
    · simp [DrawFrame, h1, h2]
    · by_cases h3 : inp.presentResult = .VK_SUCCESS
      · have hfr : s.framebufferResized = false := by
          cases hb : s.framebufferResized
          · rfl
          · exact absurd (Or.inr (Or.inr hb)) h2
        simp [DrawFrame, h1, h2, h3, hfr]
      · exfalso; apply h; simp [DrawFrame, h1, h2, h3]
  · exfalso; apply h; simp [DrawFrame, h1]

/-- Over any fatal-free action sequence the frame counter is the
initial counter plus the number of ticks, modulo 2. -/
theorem runActions_frame_count (acts : List Action) :
    ∀ s : DrawState, s.mCurrentFrame < 2 →
    Ev.fatalExit ∉ (runActions s acts).2 →
    (runActions s acts).1.mCurrentFrame = (s.mCurrentFrame + tickCount acts) % 2 := by
  induction acts with
  | nil =>
    intro s hlt _
    simp [runActions, tickCount, Nat.mod_eq_of_lt hlt]
  | cons a rest ih =>
    intro s hlt hok
    simp only [runActions, List.mem_append, not_or] at hok ⊢
    obtain ⟨hok1, hok2⟩ := hok
    cases a with
    | notifyResize =>
      simp only [stepAction] at hok1 hok2 ⊢
      rw [ih (SetFrameBufferResized s) hlt hok2]
      simp [SetFrameBufferResized, tickCount]
    | tick inp =>
      simp only [stepAction] at hok1 hok2 ⊢
      have hadv := DrawFrame_nonfatal_advance s inp hok1
      have hlt' : (DrawFrame s inp).1.mCurrentFrame < 2 := by
        rw [hadv]; exact Nat.mod_lt _ (by decide)
      rw [ih (DrawFrame s inp).1 hlt' hok2, hadv]
      simp only [MAX_FRAMES_IN_FLIGHT, tickCount]
      omega

/-- Claim C9: starting from the initial renderer state, after any
fatal-free sequence of ticks and resize notifications the frame index
equals the number of ticks modulo MAX_FRAMES_IN_FLIGHT = 2 — the index
follows 0,1,0,1,... regardless of interleaved recreations — and is
always strictly below 2. -/
theorem C9_frame_index_cycles (acts : List Action)
    (h : Ev.fatalExit ∉ (runActions initialDrawState acts).2) :
    (runActions initialDrawState acts).1.mCurrentFrame =
      tickCount acts % MAX_FRAMES_IN_FLIGHT ∧
    (runActions initialDrawState acts).1.mCurrentFrame < MAX_FRAMES_IN_FLIGHT := by
  have h0 := runActions_frame_count acts initialDrawState (by decide) h
  constructor
  · rw [h0]
    simp [initialDrawState, MAX_FRAMES_IN_FLIGHT]
  · rw [h0]
    have hlt : (initialDrawState.mCurrentFrame + tickCount acts) % 2 < 2 :=
      Nat.mod_lt _ (by decide)
    simpa [MAX_FRAMES_IN_FLIGHT] using hlt

/-- Witness for C9: three ticks with a resize latched before the
second (so the second tick recreates the swapchain); the frame index
ends at 3 % 2 = 1. -/
theorem C9_frame_index_cycles_witness :
    (runActions initialDrawState
        [.tick ⟨.VK_SUCCESS, .VK_SUCCESS, .VK_SUCCESS⟩, .notifyResize,
         .tick ⟨.VK_SUCCESS, .VK_SUCCESS, .VK_SUCCESS⟩,
         .tick ⟨.VK_SUCCESS, .VK_SUCCESS, .VK_SUCCESS⟩]).1.mCurrentFrame =
      tickCount [.tick ⟨.VK_SUCCESS, .VK_SUCCESS, .VK_SUCCESS⟩, .notifyResize,
         .tick ⟨.VK_SUCCESS, .VK_SUCCESS, .VK_SUCCESS⟩,
         .tick ⟨.VK_SUCCESS, .VK_SUCCESS, .VK_SUCCESS⟩] % MAX_FRAMES_IN_FLIGHT ∧
    (runActions initialDrawState
        [.tick ⟨.VK_SUCCESS, .VK_SUCCESS, .VK_SUCCESS⟩, .notifyResize,
         .tick ⟨.VK_SUCCESS, .VK_SUCCESS, .VK_SUCCESS⟩,
         .tick ⟨.VK_SUCCESS, .VK_SUCCESS, .VK_SUCCESS⟩]).1.mCurrentFrame < MAX_FRAMES_IN_FLIGHT :=
  C9_frame_index_cycles _ (by decide)

/-! ## selectPhysicalDevice: multimap structure -/

/-- Inserting into the multimap never yields the empty list. -/
theorem multimapInsert_ne_nil (l : List (Nat × Nat)) (p : Nat × Nat) :
    multimapInsert l p ≠ [] := by
  cases l with
  | nil => simp [multimapInsert]
  | cons q rest =>
    simp only [multimapInsert]
    split <;> simp

/-- getLast? looks past the head of a non-empty-tailed cons. -/
theorem getLast?_cons_ne_nil {α : Type} (a : α) {l : List α} (h : l ≠ []) :
    (a :: l).getLast? = l.getLast? := by
  cases l with
  | nil => exact absurd rfl h
  | cons b bs => exact List.getLast?_cons_cons

/-- The head of a sorted entry list has the least key, in particular a
key at most the last entry's. -/
theorem sorted_head_le_getLast :
    ∀ {rest : List (Nat × Nat)} {q l' : Nat × Nat}, keysSorted (q :: rest) →
    (q :: rest).getLast? = some l' → q.1 ≤ l'.1 := by
  intro rest
  induction rest with
  | nil =>
    intro q l' _ hl
    simp only [List.getLast?_singleton, Option.some.injEq] at hl
    subst hl
    exact Nat.le_refl _
  | cons r rs ih =>
    intro q l' h hl
    rw [List.getLast?_cons_cons] at hl
    exact Nat.le_trans (List.chain'_cons.mp h).1 (ih (List.chain'_cons.mp h).2 hl)

/-- Upper-bound insertion preserves the multimap's sortedness. -/
theorem keysSorted_multimapInsert (l : List (Nat × Nat)) (p : Nat × Nat) :
    keysSorted l → keysSorted (multimapInsert l p) := by
  induction l with
  | nil => intro _; simp [multimapInsert]
  | cons q rest ih =>
    intro h
    by_cases hp : p.1 < q.1
    · simp only [multimapInsert, if_pos hp]
      exact List.chain'_cons.mpr ⟨Nat.le_of_lt hp, h⟩
    · simp only [multimapInsert, if_neg hp]
      refine List.chain'_cons'.mpr ⟨?_, ih h.tail⟩
      intro y hy
      cases rest with
      | nil =>
        simp only [multimapInsert, List.head?_cons, Option.mem_def, Option.some.injEq] at hy
        subst hy
        omega
      | cons r rs =>
        simp only [multimapInsert] at hy
        by_cases hpr : p.1 < r.1
        · rw [if_pos hpr] at hy
          simp only [List.head?_cons, Option.mem_def, Option.some.injEq] at hy
          subst hy
          omega
        · rw [if_neg hpr] at hy
          simp only [List.head?_cons, Option.mem_def, Option.some.injEq] at hy
          subst hy
          exact (List.chain'_cons.mp h).1

/-- On a sorted multimap, inserting p moves the last entry to whichever
of (old last, p) has the larger key, p winning ties — that is exactly
runMax. -/
theorem getLast?_multimapInsert (l : List (Nat × Nat)) (p : Nat × Nat) :
    keysSorted l → (multimapInsert l p).getLast? = runMax l.getLast? p := by
  induction l with
  | nil => intro _; rfl
  | cons q rest ih =>
    intro h
    by_cases hp : p.1 < q.1
    · rw [show multimapInsert (q :: rest) p = p :: q :: rest from by
        simp [multimapInsert, hp]]
      rw [List.getLast?_cons_cons]
      have hsome : (q :: rest).getLast?.isSome := by
        rw [List.getLast?_isSome]
        simp
      obtain ⟨l', hl'⟩ := Option.isSome_iff_exists.mp hsome
      rw [hl']
      have hq : q.1 ≤ l'.1 := sorted_head_le_getLast h hl'
      simp [runMax, Nat.lt_of_lt_of_le hp hq]
    · rw [show multimapInsert (q :: rest) p = q :: multimapInsert rest p from by
        simp [multimapInsert, hp]]
      rw [getLast?_cons_ne_nil q (multimapInsert_ne_nil rest p), ih h.tail]
      cases rest with
      | nil => simp [runMax, hp]
      | cons r rs => rw [List.getLast?_cons_cons]

/-- Bridge: the last entry of the multimap the candidate loop builds is
computed by the runMax-based loop. -/
theorem candidatesGo_getLast (devs : List PhysicalDevice) :
    ∀ (i : Nat) (acc : List (Nat × Nat)), keysSorted acc →
    (candidatesGo i acc devs).getLast? = selectGo i acc.getLast? devs := by
  induction devs with
  | nil => intro i acc _; rfl
  | cons d rest ih =>
    intro i acc hs
    by_cases he : isEligible d = true
    · simp only [candidatesGo, selectGo, if_pos he]
      rw [ih (i + 1) _ (keysSorted_multimapInsert acc _ hs),
          getLast?_multimapInsert acc _ hs]
    · simp only [candidatesGo, selectGo, if_neg he]
      exact ih (i + 1) acc hs

/-- selectPhysicalDevice in runMax form. -/
theorem selectPhysicalDevice_eq_selectGo (devs : List PhysicalDevice) :
    selectPhysicalDevice devs = (selectGo 0 none devs).map Prod.snd := by
  unfold selectPhysicalDevice
  rw [candidatesGo_getLast devs 0 [] (by simp)]
  rfl

/-- The selection loop yields a candidate whenever one exists. -/
theorem selectGo_isSome (devs : List PhysicalDevice) :
    ∀ (i : Nat) (best : Option (Nat × Nat)),
    ((∃ d ∈ devs, isEligible d = true) ∨ best.isSome = true) →
    (selectGo i best devs).isSome = true := by
  induction devs with
  | nil =>
    intro i best h
    rcases h with ⟨d, hd, _⟩ | h
    · simp at hd
    · exact h
  | cons d rest ih =>
    intro i best h
    by_cases he : isEligible d = true
    · simp only [selectGo, if_pos he]
      apply ih
      refine Or.inr ?_
      cases best with
      | none => rfl
      | some l =>
        simp only [runMax]
        split <;> rfl
    · simp only [selectGo, if_neg he]
      apply ih
      rcases h with ⟨d', hd', he'⟩ | h
      · rcases List.mem_cons.mp hd' with h1 | h1
        · subst h1; exact absurd he' he
        · exact Or.inl ⟨d', h1, he'⟩
      · exact Or.inr h

/-- A returned candidate is either the incoming best or an eligible
device of the scanned block, with its score and absolute index. -/
theorem selectGo_mem (devs : List PhysicalDevice) :
    ∀ (i : Nat) (best : Option (Nat × Nat)) (s k : Nat),
    selectGo i best devs = some (s, k) →
    best = some (s, k) ∨
      ∃ j d, devs[j]? = some d ∧ isEligible d = true ∧ deviceScore d = s ∧ k = i + j := by
  induction devs with
  | nil =>
    intro i best s k h
    exact Or.inl h
  | cons d rest ih =>
    intro i best s k h
    by_cases he : isEligible d = true
    · simp only [selectGo, if_pos he] at h
      rcases ih (i + 1) _ s k h with h1 | ⟨j, d', hj, he', hs, hk⟩
      · cases hb : best with
        | none =>
          rw [hb] at h1
          simp only [runMax, Option.some.injEq, Prod.mk.injEq] at h1
          exact Or.inr ⟨0, d, by simp, he, h1.1, by omega⟩
        | some l =>
          rw [hb] at h1
          simp only [runMax] at h1
          split at h1
          · exact Or.inl h1
          · simp only [Option.some.injEq, Prod.mk.injEq] at h1
            exact Or.inr ⟨0, d, by simp, he, h1.1, by omega⟩
      · exact Or.inr ⟨j + 1, d', by simpa using hj, he', hs, by omega⟩
    · simp only [selectGo, if_neg he] at h
      rcases ih (i + 1) best s k h with h1 | ⟨j, d', hj, he', hs, hk⟩
      · exact Or.inl h1
      · exact Or.inr ⟨j + 1, d', by simpa using hj, he', hs, by omega⟩

/-- Invariants of the selection loop: the returned score dominates the
incoming best and every eligible scanned device, strictly dominates
every eligible device strictly after the returned index, and a
returned index before the scanned block must come from the incoming
best. -/
theorem selectGo_spec (devs : List PhysicalDevice) :
    ∀ (i : Nat) (best : Option (Nat × Nat)) (s k : Nat),
    selectGo i best devs = some (s, k) →
    (∀ b1 b2 : Nat, best = some (b1, b2) → b1 ≤ s) ∧
    (∀ (j : Nat) (d : PhysicalDevice), devs[j]? = some d → isEligible d = true →
      deviceScore d ≤ s) ∧
    (∀ (j : Nat) (d : PhysicalDevice), devs[j]? = some d → isEligible d = true →
      k < i + j → deviceScore d < s) ∧
    (k < i → best = some (s, k)) := by
  induction devs with
  | nil =>
    intro i best s k h
    simp only [selectGo] at h
    refine ⟨?_, ?_, ?_, fun _ => h⟩
    · intro b1 b2 hb
      rw [h] at hb
      simp only [Option.some.injEq, Prod.mk.injEq] at hb
      omega
    · intro j d hj
      simp at hj
    · intro j d hj
      simp at hj
  | cons d rest ih =>
    intro i best s k h
    by_cases he : isEligible d = true
    · simp only [selectGo, if_pos he] at h
      have IH := ih (i + 1) (runMax best (deviceScore d, i)) s k h
      have hrm : ∃ c1 c2, runMax best (deviceScore d, i) = some (c1, c2) ∧
          deviceScore d ≤ c1 ∧ (∀ b1 b2, best = some (b1, b2) → b1 ≤ c1) ∧
          ((c1, c2) = (deviceScore d, i) ∨
            (best = some (c1, c2) ∧ deviceScore d < c1)) := by
        cases best with
        | none =>
          refine ⟨deviceScore d, i, rfl, Nat.le_refl _, ?_, Or.inl rfl⟩
          intro b1 b2 hb
          simp at hb
        | some l =>
          obtain ⟨l1, l2⟩ := l
          by_cases hlt : deviceScore d < l1
          · refine ⟨l1, l2, by simp [runMax, hlt], Nat.le_of_lt hlt, ?_, Or.inr ⟨rfl, hlt⟩⟩
            intro b1 b2 hb
            simp only [Option.some.injEq, Prod.mk.injEq] at hb
            omega
          · refine ⟨deviceScore d, i, by simp [runMax, hlt], Nat.le_refl _, ?_, Or.inl rfl⟩
            intro b1 b2 hb
            simp only [Option.some.injEq, Prod.mk.injEq] at hb
            omega
      obtain ⟨c1, c2, hc, hdc, hbc, hcase⟩ := hrm
      have hc1s : c1 ≤ s := IH.1 c1 c2 hc
      refine ⟨?_, ?_, ?_, ?_⟩
      · intro b1 b2 hb
        exact Nat.le_trans (hbc b1 b2 hb) hc1s
      · intro j d' hj he'
        match j with
        | 0 =>
          simp only [List.getElem?_cons_zero, Option.some.injEq] at hj
          subst hj
          exact Nat.le_trans hdc hc1s
        | j' + 1 =>
          simp only [List.getElem?_cons_succ] at hj
          exact IH.2.1 j' d' hj he'
      · intro j d' hj he' hk
        match j with
        | 0 =>
          simp only [List.getElem?_cons_zero, Option.some.injEq] at hj
          subst hj
          have hk' : k < i + 1 := by omega
          have hbest := IH.2.2.2 hk'
          rw [hc] at hbest
          simp only [Option.some.injEq, Prod.mk.injEq] at hbest
          rcases hcase with hco | ⟨_, hstrict⟩
          · simp only [Prod.mk.injEq] at hco
            omega
          · omega
        | j' + 1 =>
          simp only [List.getElem?_cons_succ] at hj
          exact IH.2.2.1 j' d' hj he' (by omega)
      · intro hk
        have hbest := IH.2.2.2 (by omega)
        rw [hc] at hbest
        simp only [Option.some.injEq, Prod.mk.injEq] at hbest
        rcases hcase with hco | ⟨hb, _⟩
        · simp only [Prod.mk.injEq] at hco
          omega
        · rw [hb, hbest.1, hbest.2]
    · simp only [selectGo, if_neg he] at h
      have IH := ih (i + 1) best s k h
      refine ⟨IH.1, ?_, ?_, fun hk => IH.2.2.2 (by omega)⟩
      · intro j d' hj he'
        match j with
        | 0 =>
          simp only [List.getElem?_cons_zero, Option.some.injEq] at hj
          subst hj
          exact absurd he' he
        | j' + 1 =>
          simp only [List.getElem?_cons_succ] at hj
          exact IH.2.1 j' d' hj he'
      · intro j d' hj he' hk
        match j with
        | 0 =>
          simp only [List.getElem?_cons_zero, Option.some.injEq] at hj
          subst hj
          exact absurd he' he
        | j' + 1 =>
          simp only [List.getElem?_cons_succ] at hj
          exact IH.2.2.1 j' d' hj he' (by omega)

/-- Claim C5: whenever at least one device is eligible (swapchain
extension present, non-empty surface-format and present-mode lists),
selectPhysicalDevice returns the index of an eligible device whose
score — 2000 for discrete, 500 for integrated, 50 for CPU, plus
maxImageDimension2D / 100 — is maximal among eligible devices; in
particular a discrete device outscores an integrated one with the same
image-dimension limit, and an ineligible device is never selected. -/
theorem C5_select_max_eligible (devs : List PhysicalDevice)
    (h : ∃ d ∈ devs, isEligible d = true) :
    (∃ k d, selectPhysicalDevice devs = some k ∧ devs[k]? = some d ∧
      isEligible d = true ∧
      ∀ (j : Nat) (e : PhysicalDevice), devs[j]? = some e → isEligible e = true →
        deviceScore e ≤ deviceScore d) ∧
    (∀ p q : PhysicalDevice,
      p.properties.deviceType = .VK_PHYSICAL_DEVICE_TYPE_DISCRETE_GPU →
      q.properties.deviceType = .VK_PHYSICAL_DEVICE_TYPE_INTEGRATED_GPU →
      p.properties.limits.maxImageDimension2D = q.properties.limits.maxImageDimension2D →
      deviceScore q < deviceScore p) := by
  constructor
  · have hsome := selectGo_isSome devs 0 none (Or.inl h)
    obtain ⟨⟨s, k⟩, hsk⟩ := Option.isSome_iff_exists.mp hsome
    rcases selectGo_mem devs 0 none s k hsk with h1 | ⟨j, d, hj, he, hs, hk⟩
    · exact absurd h1 (by simp)
    · have hspec := selectGo_spec devs 0 none s k hsk
      refine ⟨k, d, ?_, ?_, he, ?_⟩
      · rw [selectPhysicalDevice_eq_selectGo, hsk]
        rfl
      · rw [show k = j from by omega]
        exact hj
      · intro j' e hj' he'
        have hle := hspec.2.1 j' e hj' he'
        rw [hs]
        exact hle
  · intro p q hp hq hdim
    simp only [deviceScore, hp, hq, hdim]
    omega

/-- Witness for C5 on a two-device list: integrated then discrete,
equal image-dimension limits. -/
theorem C5_select_max_eligible_witness :
    (∃ k d, selectPhysicalDevice deviceListA = some k ∧ deviceListA[k]? = some d ∧
      isEligible d = true ∧
      ∀ (j : Nat) (e : PhysicalDevice), deviceListA[j]? = some e → isEligible e = true →
        deviceScore e ≤ deviceScore d) ∧
    (∀ p q : PhysicalDevice,
      p.properties.deviceType = .VK_PHYSICAL_DEVICE_TYPE_DISCRETE_GPU →
      q.properties.deviceType = .VK_PHYSICAL_DEVICE_TYPE_INTEGRATED_GPU →
      p.properties.limits.maxImageDimension2D = q.properties.limits.maxImageDimension2D →
      deviceScore q < deviceScore p) :=
  C5_select_max_eligible deviceListA
    ⟨mkDevice .VK_PHYSICAL_DEVICE_TYPE_INTEGRATED_GPU 1000, by decide, by decide⟩

/-- Counterexample to C2: two identical eligible discrete devices tie
at the maximum score, and the selector returns index 1 — the last of
the tied candidates — not the first-seen index 0 the claim demands. -/
theorem C2_first_seen_counterexample :
    isEligible (mkDevice .VK_PHYSICAL_DEVICE_TYPE_DISCRETE_GPU 1000) = true ∧
    tiedDeviceList.map deviceScore = [2010, 2010] ∧
    selectPhysicalDevice tiedDeviceList = some 1 ∧
    (some 1 : Option Nat) ≠ some 0 := by
  decide

/-- Claim C2 as amended: among tied maximum-score eligible candidates
selectPhysicalDevice returns the index of the LAST such device in
enumeration order (the multimap inserts equal keys at the upper bound
of their range and the selector takes the last entry): every eligible
device scores at most the selected one, and every eligible device
strictly after the selected index scores strictly less. -/
theorem C2_last_seen_wins (devs : List PhysicalDevice) (k : Nat)
    (h : selectPhysicalDevice devs = some k) :
    ∃ d, devs[k]? = some d ∧ isEligible d = true ∧
      (∀ (j : Nat) (e : PhysicalDevice), devs[j]? = some e → isEligible e = true →
        deviceScore e ≤ deviceScore d) ∧
      (∀ (j : Nat) (e : PhysicalDevice), devs[j]? = some e → isEligible e = true →
        k < j → deviceScore e < deviceScore d) := by
  rw [selectPhysicalDevice_eq_selectGo] at h
  cases hgo : selectGo 0 none devs with
  | none =>
    rw [hgo] at h
    simp at h
  | some p =>
  obtain ⟨s, k2⟩ := p
  rw [hgo] at h
  simp only [Option.map_some', Option.some.injEq] at h
  rw [h] at hgo
  rcases selectGo_mem devs 0 none s k hgo with h1 | ⟨j, d, hj, he, hs, hk⟩
  · exact absurd h1 (by simp)
  have hspec := selectGo_spec devs 0 none s k hgo
  refine ⟨d, ?_, he, ?_, ?_⟩
  · rw [show k = j from by omega]
    exact hj
  · intro j' e hj' he'
    have hle := hspec.2.1 j' e hj' he'
    rw [hs]
    exact hle
  · intro j' e hj' he' hlt
    have hlt' := hspec.2.2.1 j' e hj' he' (by omega)
    rw [hs]
    exact hlt'

/-- Witness for C2 (amended) on the tied two-device list: the selected
index 1 carries an eligible device dominating index 0's score weakly
and every later eligible device strictly — vacuously, there is none
after index 1. -/
theorem C2_last_seen_wins_witness :
    ∃ d, tiedDeviceList[1]? = some d ∧ isEligible d = true ∧
      (∀ (j : Nat) (e : PhysicalDevice), tiedDeviceList[j]? = some e →
        isEligible e = true → deviceScore e ≤ deviceScore d) ∧
      (∀ (j : Nat) (e : PhysicalDevice), tiedDeviceList[j]? = some e →
        isEligible e = true → 1 < j → deviceScore e < deviceScore d) :=
  C2_last_seen_wins tiedDeviceList 1 (by decide)

end Maple
